import Mathlib

set_option linter.unusedVariables false

/-! Verification development for the AgentOps repository.

The repository couples a demo vendor-management web app with the Agent Flight
Recorder (AFR) subsystem: an append-only per-run event log, a content-addressed
artifact store, a session-scoped recorder, a schema/versioning layer and a
replay/timeline reader.  The AFR Python package itself (`afr/`) is not part of
the source tree — only its documentation (`docs/recording.md`), its timeline UI
(`frontend/src/ui/App.tsx`), the runs file server (`scripts/serve-runs.mjs`)
and the vendor API service are.  Definitions for the missing package are
modelled from the spec, as marked in their doc comments; everything else is a
direct shallow embedding of the TypeScript/JavaScript source. -/

namespace AgentOps

/-- Event types emitted by the recorder (docs/recording.md "Event Types"). -/
inductive EventType
  | runStarted
  | runFinished
  | stepStarted
  | stepFinished
  | modelCall
  | artifactSaved
deriving DecidableEq, Repr

/-- Modelled from the spec: the `afr` Python package is not in the tree.  The
event record (one JSON object per `events.jsonl` line) carries the common
fields `type`, `run_id`, `timestamp_ms`, `schema_version` plus type-specific
payload fields, modelled as a flat record with `Option` payload fields.
`timestamp_ms` and `schema_version` are optional on the wire and are stamped by
`EventLog` append when absent. -/
structure Event where
  type : EventType
  run_id : String
  timestamp_ms : Option Nat := none
  schema_version : Option Nat := none
  agent : Option String := none
  labels : Option (List (String × String)) := none
  step_id : Option String := none
  step_name : Option String := none
  parent_id : Option String := none
  call_id : Option String := none
  model_name : Option String := none
  model_version : Option String := none
  model_provider : Option String := none
  prompt_ref : Option String := none
  output_ref : Option String := none
  prompt_tokens : Option Nat := none
  completion_tokens : Option Nat := none
  latency_ms : Option Nat := none
  media_type : Option String := none
  ok : Option Bool := none
  error : Option String := none
deriving DecidableEq, Repr

/-- Decidable equality of fallible results, so concrete runs of the model can
be checked by evaluation. -/
instance {ε α : Type} [DecidableEq ε] [DecidableEq α] : DecidableEq (Except ε α) :=
  fun a b =>
  match a, b with
  | .ok x, .ok y =>
    if h : x = y then .isTrue (by rw [h]) else .isFalse (fun hc => h (Except.ok.inj hc))
  | .error x, .error y =>
    if h : x = y then .isTrue (by rw [h]) else .isFalse (fun hc => h (Except.error.inj hc))
  | .ok _, .error _ => .isFalse (fun hc => Except.noConfusion hc)
  | .error _, .ok _ => .isFalse (fun hc => Except.noConfusion hc)

/-- Error taxonomy of the recorder subsystem (spec §7). -/
inductive AfrError
  | invalidState
  | notFound
  | runNotFound
  | unsupportedSchema
  | validationError
  | ioError
deriving DecidableEq, Repr

/-- Modelled from the spec: `CURRENT_SCHEMA` of `afr/schema.py` (not in the
tree).  Version 2 is current; version 1 is the historical version lacking the
field introduced in version 2. -/
def CURRENT_SCHEMA : Nat := 2

/-- Modelled from the spec: `migrate_event` of `afr/schema.py` (not in the
tree).  Brings an event of a historical version to the current shape by a
deterministic chain of pure transformations: version 2 introduced the `labels`
field with documented default `[]`, so migrating a version-1 event fills that
field when missing and restamps the version; an already-current event is
returned unchanged; an event of a version this build does not understand fails
with `UnsupportedSchemaError`. -/
def migrate (e : Event) : Except AfrError Event :=
  match e.schema_version with
  | none => .error .unsupportedSchema
  | some v =>
    if v = 1 then .ok { e with schema_version := some 2, labels := some (e.labels.getD []) }
    else if v = 2 then .ok e
    else .error .unsupportedSchema

/-- JSON values, used for artifact payloads (spec §4.1: JSON payloads are
serialized canonically with stable key order before writing). -/
inductive JsonVal
  | null
  | bool (b : Bool)
  | num (n : Int)
  | str (s : String)
  | arr (xs : List JsonVal)
  | obj (fields : List (String × JsonVal))

/-- Insert one field into a key-sorted field list. -/
def insertField (p : String × JsonVal) : List (String × JsonVal) → List (String × JsonVal)
  | [] => [p]
  | q :: qs => if p.1 ≤ q.1 then p :: q :: qs else q :: insertField p qs

/-- Sort object fields by key (insertion sort), giving the stable key order of
canonical serialization. -/
def sortFields : List (String × JsonVal) → List (String × JsonVal)
  | [] => []
  | p :: ps => insertField p (sortFields ps)

mutual

/-- Canonicalize a JSON value: recursively sort every object's fields by key. -/
def canonJson : JsonVal → JsonVal
  | .null => .null
  | .bool b => .bool b
  | .num n => .num n
  | .str s => .str s
  | .arr xs => .arr (canonJsonList xs)
  | .obj fs => .obj (sortFields (canonJsonFields fs))

/-- Canonicalize each element of a JSON array. -/
def canonJsonList : List JsonVal → List JsonVal
  | [] => []
  | x :: xs => canonJson x :: canonJsonList xs

/-- Canonicalize the value of each object field. -/
def canonJsonFields : List (String × JsonVal) → List (String × JsonVal)
  | [] => []
  | (k, v) :: fs => (k, canonJson v) :: canonJsonFields fs

end

/-- JSON string escaping for quotes and backslashes. -/
def escapeChar (c : Char) : String :=
  if c = '"' ∨ c = '\\' then String.push "\\" c else String.singleton c

/-- Render a string as a quoted JSON string literal. -/
def jsonQuote (s : String) : String :=
  "\"" ++ String.join (s.toList.map escapeChar) ++ "\""

mutual

/-- Render a JSON value to its textual serialization. -/
def renderJson : JsonVal → String
  | .null => "null"
  | .bool true => "true"
  | .bool false => "false"
  | .num n => toString n
  | .str s => jsonQuote s
  | .arr xs => "[" ++ renderJsonList xs ++ "]"
  | .obj fs => "\x7b" ++ renderJsonFields fs ++ "\x7d"

/-- Render array elements, comma separated. -/
def renderJsonList : List JsonVal → String
  | [] => ""
  | [x] => renderJson x
  | x :: xs => renderJson x ++ "," ++ renderJsonList xs

/-- Render object fields, comma separated. -/
def renderJsonFields : List (String × JsonVal) → String
  | [] => ""
  | [(k, v)] => jsonQuote k ++ ":" ++ renderJson v
  | (k, v) :: fs => jsonQuote k ++ ":" ++ renderJson v ++ "," ++ renderJsonFields fs

end

/-- An artifact payload: raw text or a JSON document (spec §3 Artifact). -/
inductive Payload
  | text (s : String)
  | json (j : JsonVal)

/-- Modelled from the spec: the bytes the Artifact Store persists for a
payload — raw text as-is, JSON serialized canonically (stable key order). -/
def serializePayload : Payload → String
  | .text s => s
  | .json j => renderJson (canonJson j)

/-- Modelled from the spec: the Artifact Store of one run (spec §4.1), a
write-once mapping from locator to stored bytes.  Locators have the form
`artifact://artifacts/<relative-path>` and resolve only relative to this run's
artifact root, so the store is scoped per run; the path-to-locator mapping
being bijective, the files are keyed here directly by locator. -/
structure ArtifactStore where
  files : List (String × String) := []
deriving DecidableEq, Repr

/-- The locator returned for a relative artifact path (spec §4.1, §6). -/
def locatorOf (relPath : String) : String := "artifact://artifacts/" ++ relPath

/-- Modelled from the spec: `save` persists the serialized payload at the
deterministic path derived from the caller's path hint, atomically, and
returns the locator. -/
def ArtifactStore.save (st : ArtifactStore) (relPath : String) (payload : Payload)
    (mediaType : String) : String × ArtifactStore :=
  (locatorOf relPath, ⟨(locatorOf relPath, serializePayload payload) :: st.files⟩)

/-- Modelled from the spec: `load` resolves the locator back to the stored
bytes, failing with `NotFoundError` if nothing is stored there. -/
def ArtifactStore.load (st : ArtifactStore) (loc : String) : Except AfrError String :=
  match st.files.lookup loc with
  | some bytes => .ok bytes
  | none => .error .notFound

/-- Modelled from the spec: one run's append-only log (`events.jsonl`) plus
the high-water timestamp that keeps assigned timestamps monotonic per run. -/
structure RunLog where
  events : List Event := []
  lastTs : Nat := 0
deriving DecidableEq, Repr

/-- Modelled from the spec: stamping done by Event Log `append`: assign
`schema_version := CURRENT_SCHEMA` if absent and `timestamp_ms` if absent
(taken at append time, clamped to the run's high-water mark so assigned
timestamps are monotonic per run). -/
def stampEvent (e : Event) (now lastTs : Nat) : Event :=
  { e with
    timestamp_ms := some (e.timestamp_ms.getD (max now lastTs)),
    schema_version := some (e.schema_version.getD CURRENT_SCHEMA) }

/-- Append one stamped event to a run's log, in order, updating the
high-water timestamp. -/
def RunLog.append (rl : RunLog) (e : Event) (now : Nat) : RunLog :=
  let e' := stampEvent e now rl.lastTs
  { events := rl.events ++ [e'], lastTs := max (e'.timestamp_ms.getD 0) rl.lastTs }

/-- Modelled from the spec: the Event Log keyed by `run_id` (spec §4.2). -/
structure EventLog where
  runs : List (String × RunLog) := []
deriving DecidableEq, Repr

/-- Update the binding of `k` in an association list in place, inserting
`f d` at the end when `k` is unbound. -/
def updateAssoc {α β : Type} [DecidableEq α] (l : List (α × β)) (k : α) (d : β)
    (f : β → β) : List (α × β) :=
  match l with
  | [] => [(k, f d)]
  | (k', v) :: rest => if k' = k then (k, f v) :: rest else (k', v) :: updateAssoc rest k d f

/-- The log of one run, if any events were ever appended for it. -/
def EventLog.getRun (log : EventLog) (rid : String) : Option RunLog :=
  log.runs.lookup rid

/-- Modelled from the spec: `append(run_id, event)` — stamps the event and
appends it to the run's log (creating the log on first append, as appending
to a file creates it). -/
def EventLog.append (log : EventLog) (rid : String) (e : Event) (now : Nat) : EventLog :=
  ⟨updateAssoc log.runs rid {} (fun rl => rl.append e now)⟩

/-- Modelled from the spec: `read_all(run_id)` — reads every event of the
run's log in file (= append) order, migrating each through the schema layer;
fails with `RunNotFoundError` if the log is missing. -/
def read_all (log : EventLog) (rid : String) : Except AfrError (List Event) :=
  match log.getRun rid with
  | none => .error .runNotFound
  | some rl => rl.events.mapM migrate

/-- Per-step lifecycle states (spec §3 Step). -/
inductive StepStatus
  | running
  | success
  | failed
deriving DecidableEq, Repr

/-- Run lifecycle states (spec §3 Run). -/
inductive RunStatus
  | running
  | finished_ok
  | finished_error
deriving DecidableEq, Repr

/-- Modelled from the spec: the Recorder's in-memory registry entry for one
started step. -/
structure StepState where
  step_name : String
  parent_id : Option String
  status : StepStatus
deriving DecidableEq, Repr

/-- Modelled from the spec: the Recorder's session state for one active run —
in-memory Run/Step registries plus the Event Log and Artifact Store it writes
through (the store scoped to this run's artifact root). -/
structure RecorderState where
  run_id : String
  agent : String
  labels : List (String × String)
  runStatus : RunStatus
  steps : List (String × StepState)
  store : ArtifactStore
  log : EventLog
deriving DecidableEq, Repr

/-- Modelled from the spec: `start_run(agent, labels)` — initializes in-memory
Run state to `running` and appends `run.started`.  The generated fresh run_id
and the append-time clock are inputs of the model. -/
def start_run (agent : String) (labels : List (String × String)) (rid : String)
    (now : Nat) : RecorderState :=
  let ev : Event := { type := .runStarted, run_id := rid, agent := some agent,
                      labels := some labels }
  { run_id := rid, agent := agent, labels := labels, runStatus := .running,
    steps := [], store := {}, log := EventLog.append {} rid ev now }

/-- Modelled from the spec: `start_step` — requires the run to be `running`
and the step_id not already started; registers the step as `running` and
appends `step.started` carrying the `parent_id` back-reference. -/
def start_step (st : RecorderState) (step_id step_name : String)
    (parent_id : Option String) (now : Nat) : Except AfrError RecorderState :=
  if st.runStatus ≠ .running then .error .invalidState
  else match st.steps.lookup step_id with
  | some _ => .error .invalidState
  | none =>
    let ev : Event := { type := .stepStarted, run_id := st.run_id,
                        step_id := some step_id, step_name := some step_name,
                        parent_id := parent_id }
    .ok { st with steps := st.steps ++ [(step_id, ⟨step_name, parent_id, .running⟩)],
                  log := st.log.append st.run_id ev now }

/-- Modelled from the spec: `finish_step` — requires the step_id to be in the
`running` state (`InvalidStateError` if never started or already finished),
persists the output via the Artifact Store, sets the step's status to
`success` and appends `step.finished` with the output reference. -/
def finish_step (st : RecorderState) (step_id step_name : String) (output : Payload)
    (now : Nat) : Except AfrError RecorderState :=
  match st.steps.lookup step_id with
  | none => .error .invalidState
  | some ss =>
    if ss.status ≠ .running then .error .invalidState
    else
      let saved := st.store.save ("steps/" ++ step_id ++ ".json") output "application/json"
      let ev : Event := { type := .stepFinished, run_id := st.run_id,
                          step_id := some step_id, step_name := some step_name,
                          output_ref := some saved.1, ok := some true }
      .ok { st with
            steps := updateAssoc st.steps step_id ⟨step_name, none, .running⟩
              (fun s => { s with status := .success }),
            store := saved.2, log := st.log.append st.run_id ev now }

/-- Arguments of `record_model_call` (spec §4.3). -/
structure ModelCallArgs where
  step_id : String
  call_id : String
  model_name : String
  model_version : String
  model_provider : String
  params : List (String × JsonVal)
  prompt : String
  output : String
  prompt_tokens : Nat
  completion_tokens : Nat
  latency_ms : Nat

/-- Outcome of each durable-storage side effect inside one
`record_model_call`, injected to model I/O failure at any point. -/
structure IOOutcome where
  promptOk : Bool := true
  outputOk : Bool := true
  appendOk : Bool := true
deriving DecidableEq, Repr

/-- Modelled from the spec: `record_model_call` — persists the prompt and the
output as artifacts under `calls/<call_id>/`, then appends a single
`model.call` event carrying both references plus token/latency metadata, and
returns the output artifact's locator.  I/O failures propagate unchanged at
the point they occur; the event is appended only after both artifacts are
saved. -/
def record_model_call (st : RecorderState) (a : ModelCallArgs) (io : IOOutcome)
    (now : Nat) : Except AfrError String × RecorderState :=
  if !io.promptOk then (.error .ioError, st)
  else
    let savedP := st.store.save ("calls/" ++ a.call_id ++ "/prompt.json")
      (.json (.str a.prompt)) "application/json"
    if !io.outputOk then (.error .ioError, { st with store := savedP.2 })
    else
      let savedO := savedP.2.save ("calls/" ++ a.call_id ++ "/output.json")
        (.json (.str a.output)) "application/json"
      if !io.appendOk then (.error .ioError, { st with store := savedO.2 })
      else
        let ev : Event :=
          { type := .modelCall, run_id := st.run_id,
            step_id := some a.step_id, call_id := some a.call_id,
            model_name := some a.model_name, model_version := some a.model_version,
            model_provider := some a.model_provider,
            prompt_ref := some savedP.1, output_ref := some savedO.1,
            prompt_tokens := some a.prompt_tokens,
            completion_tokens := some a.completion_tokens,
            latency_ms := some a.latency_ms }
        (.ok savedO.1, { st with store := savedO.2,
                                 log := st.log.append st.run_id ev now })

/-- Modelled from the spec: `save_artifact` — thin pass-through to the
Artifact Store scoped to the current run, then appends `artifact.saved`. -/
def save_artifact (st : RecorderState) (path_hint : String) (payload : Payload)
    (mediaType : String) (now : Nat) : String × RecorderState :=
  let saved := st.store.save path_hint payload mediaType
  let ev : Event := { type := .artifactSaved, run_id := st.run_id,
                      output_ref := some saved.1, media_type := some mediaType }
  (saved.1, { st with store := saved.2, log := st.log.append st.run_id ev now })

/-- Modelled from the spec: `finish_run(ok, error)` — requires the run to be
`running`, sets its terminal status and appends `run.finished`. -/
def finish_run (st : RecorderState) (okFlag : Bool) (err : Option String)
    (now : Nat) : Except AfrError RecorderState :=
  if st.runStatus ≠ .running then .error .invalidState
  else
    let ev : Event := { type := .runFinished, run_id := st.run_id,
                        ok := some okFlag, error := err }
    .ok { st with runStatus := if okFlag then .finished_ok else .finished_error,
                  log := st.log.append st.run_id ev now }

/-- One Recorder call after `start_run`, with the I/O outcome for the calls
that touch durable storage more than once. -/
inductive RecorderOp
  | startStep (step_id step_name : String) (parent_id : Option String)
  | finishStep (step_id step_name : String) (output : Payload)
  | modelCall (args : ModelCallArgs) (io : IOOutcome)
  | saveArtifact (path_hint : String) (payload : Payload) (mediaType : String)
  | finishRun (okFlag : Bool) (err : Option String)

/-- Apply one Recorder call to the session state at clock time `now`. -/
def applyOp (st : RecorderState) : RecorderOp → Nat → Except AfrError RecorderState
  | .startStep sid name parent, now => start_step st sid name parent now
  | .finishStep sid name out, now => finish_step st sid name out now
  | .modelCall a io, now =>
      let r := record_model_call st a io now
      r.1.map (fun _ => r.2)
  | .saveArtifact p pl mt, now => .ok (save_artifact st p pl mt now).2
  | .finishRun okf err, now => finish_run st okf err now

/-- Run a sequence of Recorder calls, stopping at the first failure (a valid
sequence is one on which this returns `.ok`). -/
def runOps (st : RecorderState) : List (RecorderOp × Nat) → Except AfrError RecorderState
  | [] => .ok st
  | (op, now) :: rest =>
    match applyOp st op now with
    | .ok st' => runOps st' rest
    | .error _ => .error .invalidState

/-- Apply one Recorder call, keeping the post-call state even when the call
reports an error (a state-machine violation leaves the state unchanged; a
failed `record_model_call` keeps whatever artifacts were written before the
failing I/O, exactly as the threaded state records). -/
def applyOpLax (st : RecorderState) (op : RecorderOp) (now : Nat) : RecorderState :=
  match op with
  | .modelCall a io => (record_model_call st a io now).2
  | _ => ((applyOp st op now).toOption).getD st

/-- Run any sequence of Recorder calls, failures included. -/
def runOpsLax (st : RecorderState) : List (RecorderOp × Nat) → RecorderState
  | [] => st
  | (op, now) :: rest => runOpsLax (applyOpLax st op now) rest

/-- A step as reconstructed by the Replay/Timeline Reader (spec §4.5), the
shape served to the timeline UI. -/
structure TimelineStep where
  step_id : String
  step_name : String
  parent_id : Option String := none
  started_ms : Nat := 0
  finished_ms : Option Nat := none
  status : StepStatus := .running
deriving DecidableEq, Repr

/-- The reconstruction `load_timeline` returns: the chronological event
sequence, the materialized step registry, the run's status as replayed, and
the index of artifact locators seen in events. -/
structure Timeline where
  events : List Event := []
  steps : List TimelineStep := []
  runStatus : RunStatus := .running
  artifacts : List String := []
deriving DecidableEq, Repr

/-- Modelled from the spec: fold one replayed event into the timeline:
`run.started`/`run.finished` set the run status, `step.started` materializes a
step (status `running`, parent from the event's `parent_id` back-reference),
`step.finished` closes the matching step, and artifact-bearing events extend
the locator index. -/
def foldEvent (tl : Timeline) (e : Event) : Timeline :=
  let tl := { tl with events := tl.events ++ [e] }
  match e.type with
  | .runStarted => { tl with runStatus := .running }
  | .runFinished =>
      { tl with runStatus := if e.ok = some true then .finished_ok else .finished_error }
  | .stepStarted =>
      { tl with steps := tl.steps ++
        [{ step_id := e.step_id.getD "", step_name := e.step_name.getD "",
           parent_id := e.parent_id, started_ms := e.timestamp_ms.getD 0 }] }
  | .stepFinished =>
      { tl with steps := tl.steps.map (fun s =>
          if s.step_id = e.step_id.getD "" then
            { s with finished_ms := e.timestamp_ms,
                     status := if e.ok = some false then .failed else .success }
          else s) }
  | .modelCall =>
      { tl with artifacts := tl.artifacts ++ (e.prompt_ref.toList ++ e.output_ref.toList) }
  | .artifactSaved => { tl with artifacts := tl.artifacts ++ e.output_ref.toList }

/-- Modelled from the spec: `load_timeline(run_id)` — replays all events via
Event Log `read_all` (which migrates each through the Schema layer) and folds
them into the reconstruction; never mutates anything, and a run whose log ends
without `run.finished` replays to status `running` (incomplete), not an
error. -/
def load_timeline (log : EventLog) (rid : String) : Except AfrError Timeline :=
  (read_all log rid).map (fun evs => evs.foldl foldEvent {})

/-- The `Step` type of `frontend/src/ui/App.tsx`. -/
structure UIStep where
  step_id : String
  step_name : String
  parent_id : Option String := none
  started_ms : Nat := 0
  finished_ms : Option Nat := none
  status : String := "running"
deriving DecidableEq, Repr

/-- A react-flow edge as built by the `edges` memo of
`frontend/src/ui/App.tsx`. -/
structure UIEdge where
  id : String
  source : String
  target : String
deriving DecidableEq, Repr

/-- JavaScript truthiness of an optional string, as in the filter
`steps.filter(s => s.parent_id)`: `undefined` and the empty string are
falsy. -/
def jsTruthy : Option String → Bool
  | none => false
  | some s => !(s == "")

/-- Shallow embedding of the `edges` useMemo of `frontend/src/ui/App.tsx`
(lines 82–93): one explicit edge per step whose `parent_id` is truthy (present
and non-empty, JS truthiness); when no step has one, a fallback of sequential
edges between consecutive steps. -/
def uiEdges (steps : List UIStep) : List UIEdge :=
  let explicit := (steps.filter (fun s => jsTruthy s.parent_id)).map
    (fun s => { id := s.parent_id.getD "" ++ "->" ++ s.step_id,
                source := s.parent_id.getD "", target := s.step_id : UIEdge })
  if explicit.length > 0 then explicit
  else (steps.zip (steps.drop 1)).map
    (fun p => { id := p.1.step_id ++ "->" ++ p.2.step_id,
                source := p.1.step_id, target := p.2.step_id : UIEdge })

/-- The status strings of the timeline API consumed by App.tsx. -/
def StepStatus.toUIString : StepStatus → String
  | .running => "running"
  | .success => "success"
  | .failed => "failed"

/-- A reconstructed step as the timeline UI receives it. -/
def TimelineStep.toUI (s : TimelineStep) : UIStep :=
  { step_id := s.step_id, step_name := s.step_name, parent_id := s.parent_id,
    started_ms := s.started_ms, finished_ms := s.finished_ms,
    status := s.status.toUIString }

/-- A directory entry as returned by `fs.readdir(runsDir, withFileTypes)` in
`scripts/serve-runs.mjs`. -/
structure Dirent where
  name : String
  isDirectory : Bool
deriving DecidableEq, Repr

/-- One element of the JSON array served by `GET /api/runs`. -/
structure RunEntry where
  id : String
  created_at : String
deriving DecidableEq, Repr

/-- Shallow embedding of the `GET /api/runs` handler of
`scripts/serve-runs.mjs` (lines 20–36): keep the directory entries of the runs
directory and map each to `{ id: dirent.name, created_at: new
Date().toISOString() }`; `new Date()` is the server's wall clock at the moment
the request is handled, passed here as `now`. -/
def listRuns (files : List Dirent) (now : String) : List RunEntry :=
  (files.filter (fun d => d.isDirectory)).map
    (fun d => { id := d.name, created_at := now })

/-- A JavaScript number: a finite value (modelled exactly as a rational), NaN,
or a signed infinity. -/
inductive JsNum
  | num (q : ℚ)
  | nan
  | posInf
  | negInf
deriving DecidableEq, Repr

/-- JavaScript `/` on numbers: `0 / 0` is `NaN`, a nonzero finite value over
`0` is a signed infinity, `NaN` propagates. -/
def jsDiv : JsNum → JsNum → JsNum
  | .num a, .num b =>
      if b = 0 then (if a = 0 then .nan else if a > 0 then .posInf else .negInf)
      else .num (a / b)
  | .nan, _ => .nan
  | _, .nan => .nan
  | .posInf, .num b => if b ≥ 0 then .posInf else .negInf
  | .negInf, .num b => if b ≥ 0 then .negInf else .posInf
  | .num _, .posInf => .num 0
  | .num _, .negInf => .num 0
  | .posInf, .posInf => .nan
  | .posInf, .negInf => .nan
  | .negInf, .posInf => .nan
  | .negInf, .negInf => .nan

/-- JavaScript `*` on numbers: `NaN` propagates, `0 * Infinity` is `NaN`. -/
def jsMul : JsNum → JsNum → JsNum
  | .num a, .num b => .num (a * b)
  | .nan, _ => .nan
  | _, .nan => .nan
  | .posInf, .num b => if b = 0 then .nan else if b > 0 then .posInf else .negInf
  | .num a, .posInf => if a = 0 then .nan else if a > 0 then .posInf else .negInf
  | .negInf, .num b => if b = 0 then .nan else if b > 0 then .negInf else .posInf
  | .num a, .negInf => if a = 0 then .nan else if a > 0 then .negInf else .posInf
  | .posInf, .posInf => .posInf
  | .posInf, .negInf => .negInf
  | .negInf, .posInf => .negInf
  | .negInf, .negInf => .posInf

/-- The fields of the `Vendor` interface of the vendor API service that
`getVendorAnalytics` consumes (finite JS numbers modelled as rationals). -/
structure Vendor where
  vendor_name : String
  category : Option String := none
  geography : String
  average_rating : ℚ
  compliance_violations : Option (List String) := none
deriving DecidableEq, Repr

/-- Bump the count of `k` in an insertion-ordered count table, as the JS
`reduce` into a `Record<string, number>` does. -/
def bumpCount (acc : List (String × Nat)) (k : String) : List (String × Nat) :=
  match acc with
  | [] => [(k, 1)]
  | (k', c) :: rest => if k' = k then (k', c + 1) :: rest else (k', c) :: bumpCount rest k

/-- Insert one entry into a list sorted by descending count, after existing
entries of a count at least as large (stable, as `Array.prototype.sort` with
the comparator `(a, b) => b.count - a.count`). -/
def insertByCount (p : String × Nat) : List (String × Nat) → List (String × Nat)
  | [] => [p]
  | q :: qs => if q.2 ≥ p.2 then q :: insertByCount p qs else p :: q :: qs

/-- Stable sort of count-table entries by descending count. -/
def sortCountsDesc : List (String × Nat) → List (String × Nat)
  | [] => []
  | p :: ps => insertByCount p (sortCountsDesc ps)

/-- The record returned by `VendorAPI.getVendorAnalytics`. -/
structure VendorAnalytics where
  totalVendors : Nat
  averageRating : JsNum
  complianceRate : JsNum
  topCategories : List (String × Nat)
  topGeographies : List (String × Nat)
deriving DecidableEq, Repr

/-- Shallow embedding of `VendorAPI.getVendorAnalytics` (mock-data branch) of
the vendor API service: `averageRating` is the rating sum divided by
`totalVendors` and `complianceRate` is the compliant fraction times 100, both
computed with JavaScript number semantics and no guard against
`totalVendors = 0`; top categories/geographies are insertion-ordered counts
sorted by descending count, first five kept. -/
def getVendorAnalytics (vendors : List Vendor) : VendorAnalytics :=
  let totalVendors := vendors.length
  let ratingSum : ℚ := vendors.foldl (fun s v => s + v.average_rating) 0
  let averageRating := jsDiv (.num ratingSum) (.num (totalVendors : ℚ))
  let compliant := vendors.filter (fun v =>
    match v.compliance_violations with
    | some l => l.isEmpty
    | none => false)
  let complianceRate :=
    jsMul (jsDiv (.num (compliant.length : ℚ)) (.num (totalVendors : ℚ))) (.num 100)
  let categoryCounts := vendors.foldl (fun acc v =>
    match v.category with
    | some c => bumpCount acc c
    | none => acc) []
  let geographyCounts := vendors.foldl (fun acc v => bumpCount acc v.geography) []
  { totalVendors := totalVendors, averageRating := averageRating,
    complianceRate := complianceRate,
    topCategories := (sortCountsDesc categoryCounts).take 5,
    topGeographies := (sortCountsDesc geographyCounts).take 5 }

/-! ## Helper definitions for the statements -/

/-- The events stored for a run, in append order (empty when the run has no
log). -/
def runEvents (log : EventLog) (rid : String) : List Event :=
  ((log.getRun rid).getD {}).events

/-- A wire event with the fields `EventLog.append` stamps erased: what the
caller handed to `append`, net of stamping. -/
def Event.core (e : Event) : Event :=
  { e with timestamp_ms := none, schema_version := none }

/-- The timestamps of a run's stored events, in log order. -/
def tsList (log : EventLog) (rid : String) : List Nat :=
  (runEvents log rid).map (fun e => e.timestamp_ms.getD 0)

/-- The `(step_id, parent_id)` pairs of the `start_step` calls of an operation
sequence, in call order. -/
def startedPairs : List (RecorderOp × Nat) → List (String × Option String)
  | [] => []
  | (.startStep sid _ parent, _) :: rest => (sid, parent) :: startedPairs rest
  | (.finishStep _ _ _, _) :: rest => startedPairs rest
  | (.modelCall _ _, _) :: rest => startedPairs rest
  | (.saveArtifact _ _ _, _) :: rest => startedPairs rest
  | (.finishRun _ _, _) :: rest => startedPairs rest

/-- The `(step_id, parent_id)` projection of a reconstructed step. -/
def TimelineStep.idParent (s : TimelineStep) : String × Option String :=
  (s.step_id, s.parent_id)

/-! ## Helper lemmas -/

theorem lookup_updateAssoc_self {α β : Type} [DecidableEq α] (l : List (α × β))
    (k : α) (d : β) (f : β → β) :
    (updateAssoc l k d f).lookup k = some (f ((l.lookup k).getD d)) := by
  induction l with
  | nil => simp [updateAssoc, List.lookup]
  | cons p rest ih =>
    obtain ⟨k', v⟩ := p
    by_cases h : k' = k
    · subst h
      simp [updateAssoc, List.lookup]
    · have hbeq : (k == k') = false := by
        simp only [beq_eq_false_iff_ne, ne_eq]
        exact fun hk => h hk.symm
      simp [updateAssoc, List.lookup, h, hbeq, ih]

theorem getRun_append_self (log : EventLog) (rid : String) (e : Event) (now : Nat) :
    (log.append rid e now).getRun rid =
      some (((log.getRun rid).getD {}).append e now) := by
  simp [EventLog.append, EventLog.getRun, lookup_updateAssoc_self]

theorem runEvents_append_self (log : EventLog) (rid : String) (e : Event) (now : Nat) :
    runEvents (log.append rid e now) rid =
      runEvents log rid ++ [stampEvent e now ((log.getRun rid).getD {}).lastTs] := by
  simp [runEvents, getRun_append_self, RunLog.append]

theorem stampEvent_type (e : Event) (now lastTs : Nat) :
    (stampEvent e now lastTs).type = e.type := rfl

theorem stampEvent_schema_version_none (e : Event) (now lastTs : Nat)
    (h : e.schema_version = none) :
    (stampEvent e now lastTs).schema_version = some CURRENT_SCHEMA := by
  simp [stampEvent, h]

theorem migrate_current (e : Event) (h : e.schema_version = some CURRENT_SCHEMA) :
    migrate e = .ok e := by
  simp [migrate, h, CURRENT_SCHEMA]

theorem mapM_migrate_current (l : List Event)
    (h : ∀ e ∈ l, e.schema_version = some CURRENT_SCHEMA) :
    l.mapM migrate = .ok l := by
  induction l with
  | nil => rfl
  | cons e rest ih =>
    rw [List.mapM_cons, migrate_current e (h e (by simp)), ih (fun x hx => h x (by simp [hx]))]
    rfl

/-! ## Claim theorems -/

/-- C10: `VendorAPI.getVendorAnalytics` on the empty vendor dataset performs
the divisions by `totalVendors = 0` unguarded, so it returns `NaN` for both
`averageRating` and `complianceRate` instead of failing or returning a
defined default. -/
theorem getVendorAnalytics_empty_nan :
    getVendorAnalytics [] =
      { totalVendors := 0, averageRating := .nan, complianceRate := .nan,
        topCategories := [], topGeographies := [] } := by
  decide

/-- C9: the `GET /api/runs` handler of `scripts/serve-runs.mjs` returns one
entry per subdirectory of the runs directory (`id` = directory name, in
directory order) and sets every entry's `created_at` to the server's wall
clock at the moment of the request — not the run's actual creation time — so
two requests served at distinct wall-clock instants return different
`created_at` values for the same unchanged run. -/
theorem listRuns_wallclock (files : List Dirent) (now now' : String)
    (hne : now ≠ now') :
    (listRuns files now).map RunEntry.id =
        (files.filter (fun d => d.isDirectory)).map Dirent.name
    ∧ (∀ r ∈ listRuns files now, r.created_at = now)
    ∧ (∀ r ∈ listRuns files now, ∀ r' ∈ listRuns files now',
        r.created_at ≠ r'.created_at) := by
  refine ⟨?_, ?_, ?_⟩
  · simp [listRuns]
  · intro r hr
    simp only [listRuns, List.mem_map] at hr
    obtain ⟨d, _, rfl⟩ := hr
    rfl
  · intro r hr r' hr'
    simp only [listRuns, List.mem_map] at hr hr'
    obtain ⟨d, _, rfl⟩ := hr
    obtain ⟨d', _, rfl⟩ := hr'
    simpa using hne

/-- Witness for C9 at a concrete directory listing (one run directory, one
stray file) and two distinct wall-clock readings. -/
theorem listRuns_wallclock_witness :
    ("2024-01-01T00:00:00Z" : String) ≠ "2024-01-01T00:00:01Z"
    ∧ ((listRuns [⟨"runA", true⟩, ⟨"notes.txt", false⟩] "2024-01-01T00:00:00Z").map
          RunEntry.id =
        (([⟨"runA", true⟩, ⟨"notes.txt", false⟩] :
            List Dirent).filter (fun d => d.isDirectory)).map Dirent.name
      ∧ (∀ r ∈ listRuns [⟨"runA", true⟩, ⟨"notes.txt", false⟩] "2024-01-01T00:00:00Z",
          r.created_at = "2024-01-01T00:00:00Z")
      ∧ (∀ r ∈ listRuns [⟨"runA", true⟩, ⟨"notes.txt", false⟩] "2024-01-01T00:00:00Z",
          ∀ r' ∈ listRuns [⟨"runA", true⟩, ⟨"notes.txt", false⟩] "2024-01-01T00:00:01Z",
          r.created_at ≠ r'.created_at)) :=
  ⟨by decide, listRuns_wallclock _ _ _ (by decide)⟩

/-- C5: Artifact Store round-trip — for any payload saved via the store's
`save` (and likewise via the Recorder's `save_artifact` pass-through), `load`
of the locator returned by the save yields exactly the persisted serialization
of that payload. -/
theorem save_load_roundtrip (st : ArtifactStore) (relPath : String) (p : Payload)
    (mt : String) (rst : RecorderState) (hint : String) (now : Nat) :
    (st.save relPath p mt).2.load (st.save relPath p mt).1 = .ok (serializePayload p)
    ∧ (save_artifact rst hint p mt now).2.store.load (save_artifact rst hint p mt now).1
        = .ok (serializePayload p) := by
  constructor
  · simp [ArtifactStore.save, ArtifactStore.load, List.lookup]
  · simp [save_artifact, ArtifactStore.save, ArtifactStore.load, List.lookup]

/-- C8: `migrate` is idempotent — whenever `migrate` succeeds, applying it
again to the result returns that result unchanged, and migrating an event
already at the current schema version is a no-op. -/
theorem migrate_idempotent :
    (∀ e e', migrate e = .ok e' → migrate e' = .ok e')
    ∧ (∀ e, e.schema_version = some CURRENT_SCHEMA → migrate e = .ok e) := by
  constructor
  · intro e e' h
    cases hv : e.schema_version with
    | none => simp [migrate, hv] at h
    | some v =>
      by_cases h1 : v = 1
      · subst h1
        simp [migrate, hv] at h
        subst h
        simp [migrate]
      · by_cases h2 : v = 2
        · subst h2
          simp [migrate, hv, h1] at h
          subst h
          simp [migrate, hv, h1]
        · simp [migrate, hv, h1, h2] at h
  · intro e h
    simp [migrate, h, CURRENT_SCHEMA]

/-- Witness for C8: a version-1 `step.started` event migrates to version 2
with the defaulted `labels` field, and migrating the result again is a
no-op. -/
theorem migrate_idempotent_witness :
    migrate { type := .stepStarted, run_id := "r", schema_version := some 1 } =
        .ok { type := .stepStarted, run_id := "r", schema_version := some 2,
              labels := some [] }
    ∧ migrate { type := .stepStarted, run_id := "r", schema_version := some 2,
                labels := some [] } =
        .ok { type := .stepStarted, run_id := "r", schema_version := some 2,
              labels := some [] } :=
  ⟨by decide,
   migrate_idempotent.1
     { type := .stepStarted, run_id := "r", schema_version := some 1 }
     { type := .stepStarted, run_id := "r", schema_version := some 2,
       labels := some [] }
     (by decide)⟩

/-- C7: `finish_step` succeeds only on a step in the `running` state — calling
it for a step_id never started reports `InvalidStateError`, and after one
successful `finish_step` any second call on the same step_id reports
`InvalidStateError`. -/
theorem finish_step_invalid_state :
    (∀ st sid name out now, st.steps.lookup sid = none →
        finish_step st sid name out now = .error .invalidState)
    ∧ (∀ st sid name out now st', finish_step st sid name out now = .ok st' →
        ∀ name' out' now', finish_step st' sid name' out' now' = .error .invalidState) := by
  constructor
  · intro st sid name out now h
    simp [finish_step, h]
  · intro st sid name out now st' h name' out' now'
    unfold finish_step at h
    cases hl : st.steps.lookup sid with
    | none => rw [hl] at h; simp at h
    | some ss =>
      rw [hl] at h
      by_cases hs : ss.status = .running
      · simp [hs] at h
        have hsteps : st'.steps.lookup sid =
            some { ss with status := StepStatus.success } := by
          rw [← h]
          simp [lookup_updateAssoc_self, hl]
        simp [finish_step, hsteps]
      · simp [hs] at h

/-- Witness for C7: on a fresh run, finishing the never-started step `s1`
fails; after starting and finishing `s1`, finishing it a second time fails. -/
theorem finish_step_invalid_state_witness :
    ((start_run "demo" [] "r1" 0).steps.lookup "s1" = none
      ∧ finish_step (start_run "demo" [] "r1" 0) "s1" "Fetch" (.text "x") 1 =
          .error .invalidState)
    ∧ (finish_step
          ((start_step (start_run "demo" [] "r1" 0) "s1" "Fetch" none 1).toOption.getD
            (start_run "demo" [] "r1" 0)) "s1" "Fetch" (.text "done") 2 =
        .ok ((finish_step
          ((start_step (start_run "demo" [] "r1" 0) "s1" "Fetch" none 1).toOption.getD
            (start_run "demo" [] "r1" 0)) "s1" "Fetch" (.text "done") 2).toOption.getD
            (start_run "demo" [] "r1" 0))
      ∧ finish_step ((finish_step
          ((start_step (start_run "demo" [] "r1" 0) "s1" "Fetch" none 1).toOption.getD
            (start_run "demo" [] "r1" 0)) "s1" "Fetch" (.text "done") 2).toOption.getD
            (start_run "demo" [] "r1" 0)) "s1" "Fetch" (.text "again") 3 =
          .error .invalidState) :=
  ⟨⟨by decide,
    finish_step_invalid_state.1 (start_run "demo" [] "r1" 0) "s1" "Fetch" (.text "x") 1
      (by decide)⟩,
   ⟨by decide,
    finish_step_invalid_state.2
      ((start_step (start_run "demo" [] "r1" 0) "s1" "Fetch" none 1).toOption.getD
        (start_run "demo" [] "r1" 0)) "s1" "Fetch" (.text "done") 2
      ((finish_step
          ((start_step (start_run "demo" [] "r1" 0) "s1" "Fetch" none 1).toOption.getD
            (start_run "demo" [] "r1" 0)) "s1" "Fetch" (.text "done") 2).toOption.getD
            (start_run "demo" [] "r1" 0)) (by decide) "Fetch" (.text "again") 3⟩⟩

/-- C3: crash recovery — for a run whose log holds `run.started` followed by
`step.started` and nothing further (the caller crashed), `load_timeline`
does not report any error: it returns the run with status `running`
(incomplete) and that one step with status `running`. -/
theorem load_timeline_crashed_run (agent rid sid sname : String)
    (labels : List (String × String)) (parent : Option String) (n0 n1 : Nat)
    (st : RecorderState)
    (h : start_step (start_run agent labels rid n0) sid sname parent n1 = .ok st) :
    ∃ tl, load_timeline st.log rid = .ok tl
      ∧ tl.runStatus = .running
      ∧ tl.steps.map (fun s => (s.step_id, s.status)) = [(sid, StepStatus.running)] := by
  simp [start_step, start_run, List.lookup] at h
  subst h
  simp [load_timeline, read_all, EventLog.getRun, EventLog.append, updateAssoc,
    List.lookup, RunLog.append, stampEvent, List.mapM, List.mapM.loop, migrate,
    CURRENT_SCHEMA, foldEvent, Except.map, Except.bind, bind, pure, Except.pure]

/-- Witness for C3: the concrete crashed run `r1` with the single step
`s1`. -/
theorem load_timeline_crashed_run_witness :
    start_step (start_run "demo" [] "r1" 0) "s1" "Fetch" none 1 =
        .ok ((start_step (start_run "demo" [] "r1" 0) "s1" "Fetch" none 1).toOption.getD
              (start_run "demo" [] "r1" 0))
    ∧ (∃ tl, load_timeline ((start_step (start_run "demo" [] "r1" 0) "s1" "Fetch"
            none 1).toOption.getD (start_run "demo" [] "r1" 0)).log "r1" = .ok tl
        ∧ tl.runStatus = .running
        ∧ tl.steps.map (fun s => (s.step_id, s.status)) = [("s1", StepStatus.running)]) :=
  ⟨by decide,
   load_timeline_crashed_run "demo" "r1" "s1" "Fetch" [] none 0 1 _ (by decide)⟩

/-- A single caller appending its sequence of wire events to one run's log,
in order, each at its own append-time clock reading. -/
def appendAll (log : EventLog) (rid : String) (ws : List (Event × Nat)) : EventLog :=
  ws.foldl (fun l w => l.append rid w.1 w.2) log

theorem core_stampEvent (e : Event) (now lastTs : Nat) :
    (stampEvent e now lastTs).core = e.core := rfl

/-- C4: ordering — the events a single caller appends to one run_id in
sequence are read back by `read_all` in exactly that order: `read_all`
succeeds, returns the stored log verbatim, and net of the stamps `append`
itself fills in (`timestamp_ms`/`schema_version`) the result is the prior
log's events followed by the appended sequence, in append order. -/
theorem read_all_append_order (log : EventLog) (rid : String) (rl : RunLog)
    (ws : List (Event × Nat))
    (hrun : log.getRun rid = some rl)
    (hcur : ∀ e ∈ rl.events, e.schema_version = some CURRENT_SCHEMA)
    (hw : ∀ w ∈ ws, w.1.schema_version = none) :
    ∃ l, read_all (appendAll log rid ws) rid = .ok l
      ∧ l = runEvents (appendAll log rid ws) rid
      ∧ l.map Event.core = rl.events.map Event.core ++ ws.map (fun w => w.1.core) := by
  induction ws generalizing log rl with
  | nil =>
    refine ⟨rl.events, ?_, ?_, by simp⟩
    · simp only [appendAll, List.foldl_nil, read_all, hrun]
      exact mapM_migrate_current rl.events hcur
    · simp [appendAll, runEvents, hrun]
  | cons w rest ih =>
    have hstep : appendAll log rid (w :: rest) =
        appendAll (log.append rid w.1 w.2) rid rest := by
      simp [appendAll]
    have hrun' : (log.append rid w.1 w.2).getRun rid =
        some (rl.append w.1 w.2) := by
      rw [getRun_append_self, hrun]
      rfl
    have hcur' : ∀ e ∈ (rl.append w.1 w.2).events,
        e.schema_version = some CURRENT_SCHEMA := by
      intro e he
      simp [RunLog.append] at he
      rcases he with he | he
      · exact hcur e he
      · subst he
        exact stampEvent_schema_version_none _ _ _ (hw w (by simp))
    obtain ⟨l, h1, h2, h3⟩ := ih (log.append rid w.1 w.2) (rl.append w.1 w.2)
      hrun' hcur' (fun x hx => hw x (by simp [hx]))
    refine ⟨l, by rw [hstep]; exact h1, by rw [hstep]; exact h2, ?_⟩
    rw [h3]
    simp [RunLog.append, core_stampEvent]

/-- Witness for C4: two wire events appended to the demo run `r1` are read
back after the prior `run.started` event, in append order. -/
theorem read_all_append_order_witness :
    ((start_run "demo" [] "r1" 0).log.getRun "r1" =
        some (((start_run "demo" [] "r1" 0).log.getRun "r1").getD {}))
    ∧ (∃ l, read_all (appendAll (start_run "demo" [] "r1" 0).log "r1"
          [({ type := .stepStarted, run_id := "r1", step_id := some "s1" }, 3),
           ({ type := .stepFinished, run_id := "r1", step_id := some "s1" }, 5)]) "r1" =
            .ok l
        ∧ l = runEvents (appendAll (start_run "demo" [] "r1" 0).log "r1"
            [({ type := .stepStarted, run_id := "r1", step_id := some "s1" }, 3),
             ({ type := .stepFinished, run_id := "r1", step_id := some "s1" }, 5)]) "r1"
        ∧ l.map Event.core =
            (((start_run "demo" [] "r1" 0).log.getRun "r1").getD {}).events.map Event.core
            ++ [Event.core { type := .stepStarted, run_id := "r1", step_id := some "s1" },
                Event.core { type := .stepFinished, run_id := "r1", step_id := some "s1" }]) :=
  ⟨by decide,
   read_all_append_order (start_run "demo" [] "r1" 0).log "r1"
     (((start_run "demo" [] "r1" 0).log.getRun "r1").getD {})
     [({ type := .stepStarted, run_id := "r1", step_id := some "s1" }, 3),
      ({ type := .stepFinished, run_id := "r1", step_id := some "s1" }, 5)]
     (by decide) (by decide) (by decide)⟩

/-- The run's stored timestamps are non-decreasing and bounded by the run's
high-water mark. -/
def TsInv (log : EventLog) (rid : String) : Prop :=
  List.Pairwise (· ≤ ·) (tsList log rid)
    ∧ ∀ t ∈ tsList log rid, t ≤ ((log.getRun rid).getD {}).lastTs

theorem tsList_append_none (log : EventLog) (rid : String) (e : Event) (now : Nat)
    (h : e.timestamp_ms = none) :
    tsList (log.append rid e now) rid =
      tsList log rid ++ [max now ((log.getRun rid).getD {}).lastTs] := by
  simp [tsList, runEvents_append_self, stampEvent, h]

theorem lastTs_append_none (log : EventLog) (rid : String) (e : Event) (now : Nat)
    (h : e.timestamp_ms = none) :
    (((log.append rid e now).getRun rid).getD {}).lastTs =
      max now (((log.getRun rid).getD {}).lastTs) := by
  simp [getRun_append_self, RunLog.append, stampEvent, h, max_assoc]

theorem TsInv_append_none {log : EventLog} {rid : String} (hinv : TsInv log rid)
    (e : Event) (now : Nat) (he : e.timestamp_ms = none) :
    TsInv (log.append rid e now) rid := by
  obtain ⟨hp, hb⟩ := hinv
  constructor
  · rw [tsList_append_none _ _ _ _ he, List.pairwise_append]
    refine ⟨hp, by simp, ?_⟩
    intro a ha b hbmem
    simp only [List.mem_singleton] at hbmem
    subst hbmem
    exact le_trans (hb a ha) (le_max_right _ _)
  · rw [tsList_append_none _ _ _ _ he, lastTs_append_none _ _ _ _ he]
    intro t ht
    rcases List.mem_append.mp ht with hmem | hmem
    · exact le_trans (hb t hmem) (le_max_right _ _)
    · simp only [List.mem_singleton] at hmem
      subst hmem
      exact le_refl _

theorem applyOpLax_log (st : RecorderState) (op : RecorderOp) (now : Nat) :
    (applyOpLax st op now).run_id = st.run_id
    ∧ ((applyOpLax st op now).log = st.log
       ∨ ∃ e, e.timestamp_ms = none
           ∧ (applyOpLax st op now).log = st.log.append st.run_id e now) := by
  cases op with
  | startStep sid name parent =>
    simp only [applyOpLax, applyOp, start_step]
    split
    · exact ⟨rfl, Or.inl rfl⟩
    · split
      · exact ⟨rfl, Or.inl rfl⟩
      · refine ⟨rfl, Or.inr ⟨_, ?_, rfl⟩⟩
        rfl
  | finishStep sid name out =>
    simp only [applyOpLax, applyOp, finish_step]
    split
    · exact ⟨rfl, Or.inl rfl⟩
    · split
      · exact ⟨rfl, Or.inl rfl⟩
      · refine ⟨rfl, Or.inr ⟨_, ?_, rfl⟩⟩
        rfl
  | modelCall a io =>
    simp only [applyOpLax, record_model_call]
    split
    · exact ⟨rfl, Or.inl rfl⟩
    · split
      · exact ⟨rfl, Or.inl rfl⟩
      · split
        · exact ⟨rfl, Or.inl rfl⟩
        · refine ⟨rfl, Or.inr ⟨_, ?_, rfl⟩⟩
          rfl
  | saveArtifact p pl mt =>
    refine ⟨rfl, Or.inr ⟨_, ?_, rfl⟩⟩
    rfl
  | finishRun okf err =>
    simp only [applyOpLax, applyOp, finish_run]
    split
    · exact ⟨rfl, Or.inl rfl⟩
    · refine ⟨rfl, Or.inr ⟨_, ?_, rfl⟩⟩
      rfl

theorem runOpsLax_run_id (st : RecorderState) (ops : List (RecorderOp × Nat)) :
    (runOpsLax st ops).run_id = st.run_id := by
  induction ops generalizing st with
  | nil => rfl
  | cons w rest ih =>
    obtain ⟨op, now⟩ := w
    rw [runOpsLax, ih, (applyOpLax_log st op now).1]

theorem TsInv_runOpsLax (st : RecorderState) (ops : List (RecorderOp × Nat))
    (h : TsInv st.log st.run_id) :
    TsInv (runOpsLax st ops).log st.run_id := by
  induction ops generalizing st with
  | nil => exact h
  | cons w rest ih =>
    obtain ⟨op, now⟩ := w
    rw [runOpsLax]
    obtain ⟨hrid, hlog⟩ := applyOpLax_log st op now
    have h' : TsInv (applyOpLax st op now).log (applyOpLax st op now).run_id := by
      rw [hrid]
      rcases hlog with hlog | ⟨e, he, hlog⟩
      · rw [hlog]; exact h
      · rw [hlog]; exact TsInv_append_none h e now he
    have := ih (applyOpLax st op now) h'
    rwa [hrid] at this

theorem TsInv_empty (rid : String) : TsInv ({} : EventLog) rid := by
  constructor <;> simp [tsList, runEvents, EventLog.getRun, List.lookup]

/-- C6: within one run, every event's `timestamp_ms` is monotonically
non-decreasing in log (append) order, for every sequence of Recorder
operations on that run — including sequences containing failed calls. -/
theorem recorder_timestamps_monotone (agent : String)
    (labels : List (String × String)) (rid : String) (n0 : Nat)
    (ops : List (RecorderOp × Nat)) :
    List.Chain' (· ≤ ·)
      (tsList (runOpsLax (start_run agent labels rid n0) ops).log rid) := by
  have h0 : TsInv (start_run agent labels rid n0).log rid :=
    TsInv_append_none (TsInv_empty rid) _ n0 rfl
  have h := TsInv_runOpsLax (start_run agent labels rid n0) ops h0
  exact h.1.chain'

theorem append_left_ne (x : String) {a b : String} (h : a ≠ b) :
    x ++ a ≠ x ++ b := by
  intro hc
  apply h
  rw [String.ext_iff, String.data_append, String.data_append] at hc
  exact String.ext (List.append_cancel_left hc)

/-- C2: `record_model_call` is atomic from the replay perspective — when it
reports an error (an I/O failure at any of its three durable writes) the run's
event log is unchanged, so nothing of the call is visible on replay (replay
folds only logged events; an artifact written before the failure is
unreferenced and invisible); when it succeeds, exactly one fully-formed
`model.call` event is appended, carrying both artifact references, and both
referenced artifacts are loadable from the store. -/
theorem record_model_call_atomic (st : RecorderState) (a : ModelCallArgs)
    (io : IOOutcome) (now : Nat) :
    (∀ err st', record_model_call st a io now = (.error err, st') →
        st'.log = st.log)
    ∧ (∀ loc st', record_model_call st a io now = (.ok loc, st') →
        ∃ e pl, runEvents st'.log st.run_id = runEvents st.log st.run_id ++ [e]
          ∧ e.type = .modelCall
          ∧ e.call_id = some a.call_id
          ∧ e.prompt_ref = some pl
          ∧ e.output_ref = some loc
          ∧ st'.store.load pl = .ok (serializePayload (.json (.str a.prompt)))
          ∧ st'.store.load loc = .ok (serializePayload (.json (.str a.output)))) := by
  have hne : locatorOf ("calls/" ++ a.call_id ++ "/prompt.json") ≠
      locatorOf ("calls/" ++ a.call_id ++ "/output.json") := by
    unfold locatorOf
    exact append_left_ne _ (by
      rw [String.append_assoc, String.append_assoc]
      exact append_left_ne _ (append_left_ne _ (by decide)))
  constructor
  · intro err st' h
    unfold record_model_call at h
    split at h
    · simp only [Prod.mk.injEq] at h
      rw [← h.2]
    · split at h
      · simp only [Prod.mk.injEq] at h
        rw [← h.2]
      · split at h
        · simp only [Prod.mk.injEq] at h
          rw [← h.2]
        · simp at h
  · intro loc st' h
    unfold record_model_call at h
    split at h
    · simp at h
    · split at h
      · simp at h
      · split at h
        · simp at h
        · simp only [Prod.mk.injEq] at h
          obtain ⟨hloc, hst⟩ := h
          subst hst
          obtain rfl := Except.ok.inj hloc
          refine ⟨_, locatorOf ("calls/" ++ a.call_id ++ "/prompt.json"),
            runEvents_append_self _ _ _ _, rfl, rfl, rfl, rfl, ?_, ?_⟩
          · have h1 : ((locatorOf ("calls/" ++ a.call_id ++ "/prompt.json")) ==
                (locatorOf ("calls/" ++ a.call_id ++ "/output.json"))) = false :=
              beq_eq_false_iff_ne.mpr hne
            simp [ArtifactStore.save, ArtifactStore.load, List.lookup, h1]
          · simp [ArtifactStore.save, ArtifactStore.load, List.lookup]

/-- Witness for C2: on the demo run, a successful `record_model_call` appends
the single fully-formed `model.call` event with both artifacts loadable, and
one whose final append fails leaves the log unchanged. -/
theorem record_model_call_atomic_witness :
    (record_model_call (start_run "demo" [] "r1" 0)
        ⟨"s1", "c1", "gpt-4", "0613", "openai", [], "Hello", "Hi there", 5, 3, 120⟩
        { appendOk := false } 7 =
      (.error .ioError,
       (record_model_call (start_run "demo" [] "r1" 0)
          ⟨"s1", "c1", "gpt-4", "0613", "openai", [], "Hello", "Hi there", 5, 3, 120⟩
          { appendOk := false } 7).2)
      ∧ (record_model_call (start_run "demo" [] "r1" 0)
          ⟨"s1", "c1", "gpt-4", "0613", "openai", [], "Hello", "Hi there", 5, 3, 120⟩
          { appendOk := false } 7).2.log = (start_run "demo" [] "r1" 0).log)
    ∧ (record_model_call (start_run "demo" [] "r1" 0)
        ⟨"s1", "c1", "gpt-4", "0613", "openai", [], "Hello", "Hi there", 5, 3, 120⟩
        {} 7 =
      (.ok "artifact://artifacts/calls/c1/output.json",
       (record_model_call (start_run "demo" [] "r1" 0)
          ⟨"s1", "c1", "gpt-4", "0613", "openai", [], "Hello", "Hi there", 5, 3, 120⟩
          {} 7).2)
      ∧ ∃ e pl,
          runEvents (record_model_call (start_run "demo" [] "r1" 0)
            ⟨"s1", "c1", "gpt-4", "0613", "openai", [], "Hello", "Hi there", 5, 3, 120⟩
            {} 7).2.log "r1" =
            runEvents (start_run "demo" [] "r1" 0).log "r1" ++ [e]
          ∧ e.type = .modelCall
          ∧ e.call_id = some "c1"
          ∧ e.prompt_ref = some pl
          ∧ e.output_ref = some "artifact://artifacts/calls/c1/output.json"
          ∧ (record_model_call (start_run "demo" [] "r1" 0)
              ⟨"s1", "c1", "gpt-4", "0613", "openai", [], "Hello", "Hi there", 5, 3, 120⟩
              {} 7).2.store.load pl =
              .ok (serializePayload (.json (.str "Hello")))
          ∧ (record_model_call (start_run "demo" [] "r1" 0)
              ⟨"s1", "c1", "gpt-4", "0613", "openai", [], "Hello", "Hi there", 5, 3, 120⟩
              {} 7).2.store.load "artifact://artifacts/calls/c1/output.json" =
              .ok (serializePayload (.json (.str "Hi there")))) :=
  ⟨⟨by decide,
    (record_model_call_atomic (start_run "demo" [] "r1" 0)
      ⟨"s1", "c1", "gpt-4", "0613", "openai", [], "Hello", "Hi there", 5, 3, 120⟩
      { appendOk := false } 7).1 .ioError _ (by decide)⟩,
   ⟨by decide,
    (record_model_call_atomic (start_run "demo" [] "r1" 0)
      ⟨"s1", "c1", "gpt-4", "0613", "openai", [], "Hello", "Hi there", 5, 3, 120⟩
      {} 7).2 "artifact://artifacts/calls/c1/output.json" _ (by decide)⟩⟩

theorem map_idParent_map_update (steps : List TimelineStep) (e : Event) :
    ((steps.map (fun s =>
        if s.step_id = e.step_id.getD "" then
          { s with finished_ms := e.timestamp_ms,
                   status := if e.ok = some false then StepStatus.failed
                             else StepStatus.success }
        else s)).map TimelineStep.idParent) = steps.map TimelineStep.idParent := by
  induction steps with
  | nil => rfl
  | cons s rest ih =>
    simp only [List.map_cons, ih]
    congr 1
    split <;> rfl

theorem foldl_foldEvent_idParent (evs : List Event) (tl : Timeline) :
    (evs.foldl foldEvent tl).steps.map TimelineStep.idParent =
      tl.steps.map TimelineStep.idParent
      ++ (evs.filter (fun e => e.type == EventType.stepStarted)).map
           (fun e => (e.step_id.getD "", e.parent_id)) := by
  induction evs generalizing tl with
  | nil => simp
  | cons e rest ih =>
    rw [List.foldl_cons, ih, List.filter_cons]
    cases he : e.type <;>
      simp [foldEvent, he, TimelineStep.idParent, map_idParent_map_update]
    intro a _
    split <;> exact ⟨rfl, rfl⟩

theorem startedPairs_cons (w : RecorderOp × Nat) (rest : List (RecorderOp × Nat)) :
    startedPairs (w :: rest) = startedPairs [w] ++ startedPairs rest := by
  obtain ⟨op, now⟩ := w
  cases op <;> rfl

theorem applyOp_ok (st : RecorderState) (op : RecorderOp) (now : Nat)
    (st1 : RecorderState) (h : applyOp st op now = .ok st1) :
    st1.run_id = st.run_id
    ∧ ∃ opEvs, runEvents st1.log st.run_id = runEvents st.log st.run_id ++ opEvs
      ∧ (opEvs.filter (fun e => e.type == EventType.stepStarted)).map
          (fun e => (e.step_id.getD "", e.parent_id)) = startedPairs [(op, now)]
      ∧ ∀ e ∈ opEvs, e.schema_version = some CURRENT_SCHEMA := by
  cases op with
  | startStep sid name parent =>
    simp only [applyOp, start_step] at h
    split at h
    · simp at h
    · split at h
      · simp at h
      · obtain rfl := Except.ok.inj h
        refine ⟨rfl, [_], runEvents_append_self _ _ _ _, by simp [stampEvent, startedPairs], ?_⟩
        intro e he
        simp only [List.mem_singleton] at he
        subst he
        exact stampEvent_schema_version_none _ _ _ rfl
  | finishStep sid name out =>
    simp only [applyOp, finish_step] at h
    split at h
    · simp at h
    · split at h
      · simp at h
      · obtain rfl := Except.ok.inj h
        refine ⟨rfl, [_], runEvents_append_self _ _ _ _, by simp [stampEvent, startedPairs], ?_⟩
        intro e he
        simp only [List.mem_singleton] at he
        subst he
        exact stampEvent_schema_version_none _ _ _ rfl
  | modelCall a io =>
    simp only [applyOp, record_model_call] at h
    split at h
    · simp [Except.map] at h
    · split at h
      · simp [Except.map] at h
      · split at h
        · simp [Except.map] at h
        · simp only [Except.map, Except.ok.injEq] at h
          subst h
          refine ⟨rfl, [_], runEvents_append_self _ _ _ _, by simp [stampEvent, startedPairs], ?_⟩
          intro e he
          simp only [List.mem_singleton] at he
          subst he
          exact stampEvent_schema_version_none _ _ _ rfl
  | saveArtifact p pl mt =>
    simp only [applyOp, save_artifact] at h
    obtain rfl := Except.ok.inj h
    refine ⟨rfl, [_], runEvents_append_self _ _ _ _, by simp [stampEvent, startedPairs], ?_⟩
    intro e he
    simp only [List.mem_singleton] at he
    subst he
    exact stampEvent_schema_version_none _ _ _ rfl
  | finishRun okf err =>
    simp only [applyOp, finish_run] at h
    split at h
    · simp at h
    · obtain rfl := Except.ok.inj h
      refine ⟨rfl, [_], runEvents_append_self _ _ _ _, by simp [stampEvent, startedPairs], ?_⟩
      intro e he
      simp only [List.mem_singleton] at he
      subst he
      exact stampEvent_schema_version_none _ _ _ rfl

theorem runOps_events (ops : List (RecorderOp × Nat)) :
    ∀ st st', runOps st ops = .ok st' →
      st'.run_id = st.run_id
      ∧ ∃ newEvs, runEvents st'.log st.run_id = runEvents st.log st.run_id ++ newEvs
        ∧ (newEvs.filter (fun e => e.type == EventType.stepStarted)).map
            (fun e => (e.step_id.getD "", e.parent_id)) = startedPairs ops
        ∧ ∀ e ∈ newEvs, e.schema_version = some CURRENT_SCHEMA := by
  induction ops with
  | nil =>
    intro st st' h
    obtain rfl := Except.ok.inj h
    exact ⟨rfl, [], by simp, rfl, by simp⟩
  | cons w rest ih =>
    intro st st' h
    obtain ⟨op, now⟩ := w
    rw [runOps] at h
    cases hap : applyOp st op now with
    | error e => rw [hap] at h; simp at h
    | ok st1 =>
      rw [hap] at h
      obtain ⟨hrid1, opEvs, hsplit1, hpairs1, hcur1⟩ := applyOp_ok st op now st1 hap
      obtain ⟨hrid2, newEvs, hsplit2, hpairs2, hcur2⟩ := ih st1 st' h
      rw [hrid1] at hsplit2
      refine ⟨hrid2.trans hrid1, opEvs ++ newEvs, ?_, ?_, ?_⟩
      · rw [hsplit2, hsplit1, List.append_assoc]
      · rw [List.filter_append, List.map_append, hpairs1, hpairs2]
        exact (startedPairs_cons (op, now) rest).symm
      · intro e he
        rcases List.mem_append.mp he with hm | hm
        · exact hcur1 e hm
        · exact hcur2 e hm

theorem getRun_isSome_of_runEvents (log : EventLog) (rid : String)
    (h : runEvents log rid ≠ []) :
    log.getRun rid = some ((log.getRun rid).getD {}) := by
  cases hg : log.getRun rid with
  | none =>
    exfalso
    apply h
    simp [runEvents, hg]
  | some rl => rfl

theorem jsTruthy_iff (o : Option String) :
    jsTruthy o = true ↔ ∃ p, o = some p ∧ p ≠ "" := by
  cases o with
  | none => simp [jsTruthy]
  | some s => simp [jsTruthy]

theorem mem_uiEdges_iff (steps : List UIStep)
    (hsome : ∃ s ∈ steps, jsTruthy s.parent_id = true) (ed : UIEdge) :
    ed ∈ uiEdges steps ↔ ∃ s ∈ steps, ∃ p, s.parent_id = some p ∧ p ≠ ""
      ∧ ed = { id := p ++ "->" ++ s.step_id, source := p, target := s.step_id } := by
  obtain ⟨s0, hs0, hp0⟩ := hsome
  have hfil : s0 ∈ steps.filter (fun s => jsTruthy s.parent_id) := by
    rw [List.mem_filter]
    exact ⟨hs0, hp0⟩
  have hpos : 0 < ((steps.filter (fun s => jsTruthy s.parent_id)).map
      (fun s => ({ id := s.parent_id.getD "" ++ "->" ++ s.step_id,
                   source := s.parent_id.getD "", target := s.step_id } : UIEdge))).length := by
    rw [List.length_map]
    exact List.length_pos.mpr (List.ne_nil_of_mem hfil)
  unfold uiEdges
  rw [if_pos hpos]
  rw [List.mem_map]
  constructor
  · rintro ⟨s, hmem, rfl⟩
    rw [List.mem_filter] at hmem
    obtain ⟨hmem, hps⟩ := hmem
    obtain ⟨p, hp, hpe⟩ := (jsTruthy_iff s.parent_id).mp hps
    exact ⟨s, hmem, p, hp, hpe, by rw [hp]; rfl⟩
  · rintro ⟨s, hmem, p, hp, hpe, rfl⟩
    refine ⟨s, ?_, by rw [hp]; rfl⟩
    rw [List.mem_filter]
    exact ⟨hmem, (jsTruthy_iff s.parent_id).mpr ⟨p, hp, hpe⟩⟩

theorem read_all_of_current (log : EventLog) (rid : String)
    (hne : runEvents log rid ≠ [])
    (hcur : ∀ e ∈ runEvents log rid, e.schema_version = some CURRENT_SCHEMA) :
    read_all log rid = .ok (runEvents log rid) := by
  unfold read_all
  cases hg : log.getRun rid with
  | none =>
    exact absurd (by simp [runEvents, hg]) hne
  | some rl =>
    have hev : rl.events = runEvents log rid := by simp [runEvents, hg]
    show rl.events.mapM migrate = .ok (runEvents log rid)
    rw [hev]
    exact mapM_migrate_current _ hcur

/-- The valid call sequence of the C1 counterexample: two top-level steps,
neither started with a `parent_id`. -/
def ceOps : List (RecorderOp × Nat) :=
  [(.startStep "s1" "A" none, 1), (.startStep "s2" "B" none, 2)]

/-- The recorder state after running the counterexample's calls. -/
def ceState : RecorderState :=
  (runOps (start_run "demo" [] "r1" 0) ceOps).toOption.getD (start_run "demo" [] "r1" 0)

/-- The replayed timeline of the counterexample's run. -/
def ceTimeline : Timeline :=
  (load_timeline ceState.log "r1").toOption.getD {}

/-- C1 counterexample: a sequence of valid Recorder calls starting two
top-level steps with no `parent_id` at all replays to two parentless steps,
yet the timeline UI's `edges` memo (App.tsx) renders a sequential fallback
edge `s1 -> s2` between them — refuting the claim that no edge exists between
steps for which no `parent_id` was passed to `start_step`. -/
theorem uiEdges_fallback_counterexample :
    runOps (start_run "demo" [] "r1" 0) ceOps = .ok ceState
    ∧ load_timeline ceState.log "r1" = .ok ceTimeline
    ∧ (∀ s ∈ ceTimeline.steps, s.parent_id = none)
    ∧ uiEdges (ceTimeline.steps.map TimelineStep.toUI) =
        [{ id := "s1->s2", source := "s1", target := "s2" }] := by
  decide

/-- C1 (amended): for every sequence of valid Recorder calls, the step
registry reconstructed by `load_timeline` carries exactly the
`(step_id, parent_id)` pairs passed to `start_step`, in call order; and
whenever at least one `start_step` passed a truthy `parent_id` (present and
non-empty — JS truthiness, as App.tsx filters with `s.parent_id`), the
timeline UI renders an edge from A to B exactly when B was started with the
non-empty `parent_id = A`.  (When no step carries a truthy `parent_id`, the
UI instead falls back to sequential edges between consecutive steps — the
counterexample above.) -/
theorem load_timeline_parent_edges (agent rid : String)
    (labels : List (String × String)) (n0 : Nat) (ops : List (RecorderOp × Nat))
    (st : RecorderState)
    (h : runOps (start_run agent labels rid n0) ops = .ok st) :
    ∃ tl, load_timeline st.log rid = .ok tl
      ∧ tl.steps.map TimelineStep.idParent = startedPairs ops
      ∧ ((∃ q ∈ startedPairs ops, jsTruthy q.2 = true) →
          ∀ ed, ed ∈ uiEdges (tl.steps.map TimelineStep.toUI) ↔
            ∃ s ∈ tl.steps, ∃ p, s.parent_id = some p ∧ p ≠ ""
              ∧ ed = { id := p ++ "->" ++ s.step_id, source := p,
                       target := s.step_id }) := by
  obtain ⟨hrid, newEvs, hsplit, hpairs, hcur⟩ := runOps_events ops _ st h
  have h0 : runEvents (start_run agent labels rid n0).log rid =
      [stampEvent { type := .runStarted, run_id := rid, agent := some agent,
                    labels := some labels } n0 0] := by
    simp [start_run, runEvents_append_self, runEvents, EventLog.getRun, List.lookup,
      RunLog.append, EventLog.append, updateAssoc]
  have hsplit' : runEvents st.log rid =
      stampEvent { type := .runStarted, run_id := rid, agent := some agent,
                   labels := some labels } n0 0 :: newEvs := by
    have : (start_run agent labels rid n0).run_id = rid := rfl
    rw [this] at hsplit
    rw [hsplit, h0]
    rfl
  have hall : ∀ e ∈ runEvents st.log rid, e.schema_version = some CURRENT_SCHEMA := by
    intro e he
    rw [hsplit'] at he
    rcases List.mem_cons.mp he with rfl | hm
    · exact stampEvent_schema_version_none _ _ _ rfl
    · exact hcur e hm
  have hne : runEvents st.log rid ≠ [] := by
    rw [hsplit']
    exact List.cons_ne_nil _ _
  have hread : read_all st.log rid = .ok (runEvents st.log rid) :=
    read_all_of_current st.log rid hne hall
  refine ⟨(runEvents st.log rid).foldl foldEvent {}, ?_, ?_, ?_⟩
  · rw [load_timeline, hread]
    rfl
  · rw [foldl_foldEvent_idParent, hsplit']
    simpa [List.filter_cons, stampEvent] using hpairs
  · intro hq ed
    have hsteps : ((runEvents st.log rid).foldl foldEvent {}).steps.map
        TimelineStep.idParent = startedPairs ops := by
      rw [foldl_foldEvent_idParent, hsplit']
      simpa [List.filter_cons, stampEvent] using hpairs
    have hsome : ∃ u ∈ ((runEvents st.log rid).foldl foldEvent {}).steps.map
        TimelineStep.toUI, jsTruthy u.parent_id = true := by
      obtain ⟨q, hqmem, hq2⟩ := hq
      rw [← hsteps] at hqmem
      obtain ⟨s, hsmem, hsq⟩ := List.mem_map.mp hqmem
      refine ⟨TimelineStep.toUI s, List.mem_map.mpr ⟨s, hsmem, rfl⟩, ?_⟩
      have hpq : s.parent_id = q.2 := by rw [← hsq]; rfl
      show jsTruthy s.parent_id = true
      rw [hpq]
      exact hq2
    rw [mem_uiEdges_iff _ hsome ed]
    simp [List.mem_map, TimelineStep.toUI]

/-- The call sequence of the C1 witness: step `s2` started under parent
`s1`. -/
def wOps : List (RecorderOp × Nat) :=
  [(.startStep "s1" "A" none, 1), (.startStep "s2" "B" (some "s1"), 2)]

/-- The recorder state after running the witness's calls. -/
def wState : RecorderState :=
  (runOps (start_run "demo" [] "r1" 0) wOps).toOption.getD (start_run "demo" [] "r1" 0)

/-- Witness for C1 (amended): a run with the two steps `s1` and its child
`s2` (started with `parent_id = s1`) replays to those pairs, and the UI
renders exactly the one parent edge. -/
theorem load_timeline_parent_edges_witness :
    runOps (start_run "demo" [] "r1" 0) wOps = .ok wState
    ∧ (∃ tl, load_timeline wState.log "r1" = .ok tl
        ∧ tl.steps.map TimelineStep.idParent = startedPairs wOps
        ∧ ((∃ q ∈ startedPairs wOps, jsTruthy q.2 = true) →
            ∀ ed, ed ∈ uiEdges (tl.steps.map TimelineStep.toUI) ↔
              ∃ s ∈ tl.steps, ∃ p, s.parent_id = some p ∧ p ≠ ""
                ∧ ed = { id := p ++ "->" ++ s.step_id, source := p,
                         target := s.step_id })) :=
  ⟨by decide,
   load_timeline_parent_edges "demo" "r1" [] 0 wOps wState (by decide)⟩

end AgentOps
